import Mathlib

/-!
Shallow embedding of the distributed-training code of this repository
(ResNet50 and DeepCAM training loops, and the BERT-Large Lamb optimizer),
with theorems settling the specification claims.

Conventions of the embedding:
* tensors are flat lists of exact rationals (`ℚ`), with a dtype tag and a
  sparsity flag, so elementwise arithmetic is modelled exactly;
* the floating-point square root is an abstract function `sqrtq : ℚ → ℚ`
  passed as a parameter, and the bfloat16 rounding of a float32 value is an
  abstract `rnd : ℚ → ℚ` (widening bfloat16 → float32 is exact, so it keeps
  the values);
* Python exceptions are `Except String`;
* a distributed buffer is a function `ℕ → ℚ` from the global rank to the
  value held at that rank (one scalar tracks one fixed element of the
  bucket, elementwise).
-/

/-- Tensor dtypes that appear in the code: the baseline float32 and the
reduced-precision bfloat16. -/
inductive DType where
  | float32
  | bfloat16
deriving DecidableEq, Repr

/-- A (flattened) torch tensor: its values, its dtype and its layout
sparsity flag (`Tensor.is_sparse` in torch). -/
structure Tensor where
  vals : List ℚ
  dtype : DType
  sparse : Bool
deriving DecidableEq, Repr

/-- Embedding of `torch.zeros_like(t, dtype=dt)`: a dense zero tensor of the
same shape as `t` with the requested dtype. -/
def zeros_like (t : Tensor) (dt : DType) : Tensor :=
  { vals := List.replicate t.vals.length 0, dtype := dt, sparse := false }

/-- Embedding of `t.to(dt)`. Widening to float32 keeps the values exactly;
narrowing to bfloat16 applies the abstract rounding `rnd` elementwise. -/
def tensorTo (rnd : ℚ → ℚ) (t : Tensor) (dt : DType) : Tensor :=
  match dt with
  | .float32 => { t with dtype := .float32 }
  | .bfloat16 => { vals := t.vals.map rnd, dtype := .bfloat16, sparse := t.sparse }

/-- A model parameter: its value tensor `p.data` and its (optional)
gradient tensor `p.grad`. -/
structure Param where
  data : Tensor
  grad : Option Tensor
deriving DecidableEq, Repr

/-- Embedding of `t.pow(2).sum()`: the sum of squares of the entries. -/
def sumSq (l : List ℚ) : ℚ := (l.map (fun x => x * x)).sum

/-! ## Gradient accumulation (ResNet50 `train_step` and the DeepCAM epoch
loop body)

Each micro-batch is modelled by the loss value handed to `backward` and by
whether `opt.step()` runs on that micro-batch. -/

/-- What one micro-batch does: the loss value passed to `loss.backward()`
and whether `opt.step()` is invoked. -/
structure StepTrace where
  backward_loss : ℚ
  stepped : Bool
deriving DecidableEq, Repr

/-- Embedding of `ML/ResNet50/Torch/train.py:train_step`. `accum_freq` is
`gc["data"]["gradient_accumulation_freq"]`, `isDDP` tells whether the model
is wrapped in DistributedDataParallel (the `no_sync` branch), `rawLoss` is
`loss_fn(logits, y)` and `batch_idx` the 0-based micro-batch index. All
three source branches scale the loss by `accum_freq` before backward;
`opt.step()` runs only in the `(batch_idx+1) % accum_freq == 0` branch. -/
def train_step (accum_freq : ℕ) (isDDP : Bool) (rawLoss : ℚ) (batch_idx : ℕ) : StepTrace :=
  if (batch_idx + 1) % accum_freq ≠ 0 then
    if isDDP then
      { backward_loss := rawLoss / (accum_freq : ℚ), stepped := false }
    else
      { backward_loss := rawLoss / (accum_freq : ℚ), stepped := false }
  else
    { backward_loss := rawLoss / (accum_freq : ℚ), stepped := true }

/-- Embedding of the micro-batch body of `ML_HPC/DeepCAM/Torch/train.py:main`:
the loss is scaled by `gc["data"]["gradient_accumulation"]` before backward,
and `opt.step()` runs iff `(idx+1) % accum_freq == 0 or idx+1 == len(train_data)`
(`nBatches` is `len(train_data)`). -/
def deepcam_micro_batch (accum_freq : ℕ) (rawLoss : ℚ) (idx nBatches : ℕ) : StepTrace :=
  { backward_loss := rawLoss / (accum_freq : ℚ),
    stepped := ((idx + 1) % accum_freq == 0) || (idx + 1 == nBatches) }

/-! ## Distributed collectives for the Lamb optimizer

`ML/BERT_Large/Torch/optimizer/lamb.py`. A buffer replicated across ranks
is `ℕ → ℚ` (rank to held value), tracking one scalar element of each
parameter; `n` is the world size. -/

/-- Embedding of `dist.all_reduce` with the sum op: after it every rank
holds the sum over all `n` ranks of the values they held before. -/
def all_reduce_sum (n : ℕ) (bufs : ℕ → ℚ) : ℕ → ℚ :=
  fun _ => ∑ j ∈ Finset.range n, bufs j

/-- Embedding of `Lamb.sync_grads`: a no-op when the run is not
distributed; otherwise every rank first divides its gradient by the world
size in place (`p.grad.data.div_(world_size)`) and then participates in a
sum all-reduce (`dist.all_reduce(p.grad.data)`). -/
def sync_grads (distributed : Bool) (n : ℕ) (g : ℕ → ℚ) : ℕ → ℚ :=
  if distributed then all_reduce_sum n (fun r => g r / (n : ℚ)) else g

/-- Embedding of `Lamb.sync_params`. When not distributed it returns at
once, leaving the parameters unchanged. When distributed it runs
`distance.broadcase(p.data, 0)` on the first parameter — but `distance` is
the function imported by `from turtle import distance`, which has no
attribute `broadcase`, so the first iteration raises `AttributeError`
(clearly a slip for `dist.broadcast(p.data, 0)`). Parameters are given as
their value lists. -/
def sync_params (distributed : Bool) (params : List (List ℚ)) :
    Except String (List (List ℚ)) :=
  if distributed then
    match params with
    | [] => .ok []
    | _ :: _ => .error "AttributeError: function object has no attribute broadcase"
  else
    .ok params

/-! ## Lamb optimizer construction -/

/-- The Lamb optimizer's configuration after `Lamb.__init__`: the
hyperparameters of the single param group plus the flags stored on the
instance. `distributed` caches `dist.is_initialized() and
dist.get_world_size() > 1`. -/
structure Lamb where
  lr : ℚ
  beta1 : ℚ
  beta2 : ℚ
  eps : ℚ
  weight_decay : ℚ
  adam : Bool
  bias_correction : Bool
  perform_allreduce : Bool
  distributed : Bool
deriving DecidableEq, Repr

/-- Embedding of the validation in `Lamb.__init__`: each out-of-range
hyperparameter raises `ValueError`, in the source's order; otherwise the
configured optimizer is returned. -/
def Lamb.init (lr beta1 beta2 eps weight_decay : ℚ)
    (adam bias_correction perform_allreduce distributed : Bool) :
    Except String Lamb :=
  if ¬ 0 ≤ lr then .error "Invalid learning rate"
  else if ¬ 0 ≤ eps then .error "Invalid epsilon value"
  else if ¬ (0 ≤ beta1 ∧ beta1 < 1) then .error "Invalid beta parameter at index 0"
  else if ¬ (0 ≤ beta2 ∧ beta2 < 1) then .error "Invalid beta parameter at index 1"
  else .ok { lr := lr, beta1 := beta1, beta2 := beta2, eps := eps,
             weight_decay := weight_decay, adam := adam,
             bias_correction := bias_correction,
             perform_allreduce := perform_allreduce, distributed := distributed }

/-- Whether an `Except` value is a success. -/
def isOkE {α : Type} (e : Except String α) : Bool :=
  match e with
  | .ok _ => true
  | .error _ => false

/-! ## Lamb per-parameter state and step -/

/-- The per-parameter optimizer state dictionary `self.state[p]`. Keys that
are only written on some paths (`data_fp32`, `weight_norm`, `adam_norm`,
`trust_ratio`) are `Option`s, absent until first written. -/
structure ParamState where
  step : ℕ
  exp_avg : Tensor
  exp_avg_sq : Tensor
  data_fp32 : Option Tensor
  weight_norm : Option ℚ
  adam_norm : Option ℚ
  trust_ratio : Option ℚ
deriving DecidableEq, Repr

/-- Embedding of the state-initialization block of `Lamb.step`
(`if len(state) == 0`): `step = 0`, both moments zero-filled float32
tensors of the parameter's shape, and, for a bfloat16 parameter, an
additional float32 copy of the current value in `data_fp32`. -/
def initState (p : Param) : ParamState :=
  { step := 0,
    exp_avg := zeros_like p.data .float32,
    exp_avg_sq := zeros_like p.data .float32,
    data_fp32 :=
      if p.data.dtype == DType.bfloat16 then some { p.data with dtype := .float32 }
      else none,
    weight_norm := none, adam_norm := none, trust_ratio := none }

/-- The inner trust-ratio guard of `Lamb.step` once `weight_norm` and
`adam_norm` are computed (reached only when `weight_decay != 0`): the first
component is the resulting `trust_ratio`, the second is `some` of the
divisor iff the division `weight_norm / adam_norm` is executed. In plain
Adam mode (`self.adam`) the result is overwritten with 1 afterwards. -/
def trustFromNorms (adamMode : Bool) (wn an : ℚ) : ℚ × Option ℚ :=
  let inner := if wn = 0 ∨ an = 0 then ((1 : ℚ), (none : Option ℚ)) else (wn / an, some an)
  (if adamMode then 1 else inner.1, inner.2)

/-- The `trust_ratio` variable of `Lamb.step` as a function of the two
norms: initialized to 1, and only reassigned inside the
`weight_decay != 0` branch via the guard `trustFromNorms`. -/
def lambTrustRatio (cfg : Lamb) (wn an : ℚ) : ℚ :=
  if cfg.weight_decay ≠ 0 then (trustFromNorms cfg.adam wn an).1 else 1

/-- The divisor of the `weight_norm / adam_norm` division of `Lamb.step`,
`some` exactly when that division is executed. -/
def lambTrustDivisor (cfg : Lamb) (wn an : ℚ) : Option ℚ :=
  if cfg.weight_decay ≠ 0 then (trustFromNorms cfg.adam wn an).2 else none

/-- Embedding of the body of the per-parameter loop of `Lamb.step` for a
parameter with a dense gradient `g` and (possibly fresh) state `state`,
returning the updated parameter and state. `sqrtq` is the elementwise
float square root and `rnd` the float32 → bfloat16 rounding. Mirrors the
source: moment updates, optional bias correction, `adam_step`, the
`weight_decay != 0` branch with its norms and trust ratio, the in-place
`data.add_` (which, for a bfloat16 parameter, updates the `data_fp32`
master copy it aliases) and the final cast back to bfloat16. -/
def stepDense (cfg : Lamb) (sqrtq rnd : ℚ → ℚ) (p : Param) (g : Tensor)
    (state : ParamState) : Param × ParamState :=
  let bf16_param : Bool := p.data.dtype == DType.bfloat16
  let grad := if bf16_param then tensorTo rnd g .float32 else g
  let data := if bf16_param then state.data_fp32.getD p.data else p.data
  let stepN := state.step + 1
  let exp_avg : Tensor :=
    { vals := List.zipWith (fun m gi => cfg.beta1 * m + (1 - cfg.beta1) * gi)
        state.exp_avg.vals grad.vals,
      dtype := state.exp_avg.dtype, sparse := state.exp_avg.sparse }
  let exp_avg_sq : Tensor :=
    { vals := List.zipWith (fun v gi => cfg.beta2 * v + (1 - cfg.beta2) * (gi * gi))
        state.exp_avg_sq.vals grad.vals,
      dtype := state.exp_avg_sq.dtype, sparse := state.exp_avg_sq.sparse }
  let exp_avg_hat :=
    if cfg.bias_correction then exp_avg.vals.map (fun m => m / (1 - cfg.beta1 ^ stepN))
    else exp_avg.vals
  let exp_avg_sq_hat :=
    if cfg.bias_correction then exp_avg_sq.vals.map (fun v => v / (1 - cfg.beta2 ^ stepN))
    else exp_avg_sq.vals
  let adam_step := List.zipWith (fun m v => m / (sqrtq v + cfg.eps)) exp_avg_hat exp_avg_sq_hat
  let step_size := cfg.lr
  if cfg.weight_decay ≠ 0 then
    let adam_step2 := List.zipWith (fun a d => a + cfg.weight_decay * d) adam_step data.vals
    let weight_norm := sqrtq (sumSq data.vals)
    let adam_norm := sqrtq (sumSq adam_step2)
    let trust_ratio := lambTrustRatio cfg weight_norm adam_norm
    let newData : Tensor :=
      { vals := List.zipWith (fun d a => d + -(step_size * trust_ratio) * a) data.vals adam_step2,
        dtype := data.dtype, sparse := data.sparse }
    ({ p with data := if bf16_param then tensorTo rnd newData .bfloat16 else newData },
     { step := stepN, exp_avg := exp_avg, exp_avg_sq := exp_avg_sq,
       data_fp32 := if bf16_param then some newData else state.data_fp32,
       weight_norm := some weight_norm, adam_norm := some adam_norm,
       trust_ratio := some trust_ratio })
  else
    let newData : Tensor :=
      { vals := List.zipWith (fun d a => d + -(step_size * 1) * a) data.vals adam_step,
        dtype := data.dtype, sparse := data.sparse }
    ({ p with data := if bf16_param then tensorTo rnd newData .bfloat16 else newData },
     { step := stepN, exp_avg := exp_avg, exp_avg_sq := exp_avg_sq,
       data_fp32 := if bf16_param then some newData else state.data_fp32,
       weight_norm := state.weight_norm, adam_norm := state.adam_norm,
       trust_ratio := state.trust_ratio })

/-- Embedding of one iteration of the per-parameter loop of `Lamb.step`:
a parameter with no gradient is skipped (`continue`) with its state
untouched; a sparse gradient raises `RuntimeError` before the state entry
is created or read; otherwise the dense body `stepDense` runs on the
existing state, or on a freshly initialized one on first encounter. -/
def stepParam (cfg : Lamb) (sqrtq rnd : ℚ → ℚ) (p : Param) (st0 : Option ParamState) :
    Except String (Param × Option ParamState) :=
  match p.grad with
  | none => .ok (p, st0)
  | some g =>
    if g.sparse then
      .error "Lamb does not support sparse gradients, consider SparseAdam instad."
    else
      let r := stepDense cfg sqrtq rnd p g (st0.getD (initState p))
      .ok (r.1, some r.2)

/-- The per-parameter loop of `Lamb.step` over all parameters (a single
param group), stopping at the first raised exception. -/
def stepList (cfg : Lamb) (sqrtq rnd : ℚ → ℚ) :
    List (Param × Option ParamState) → Except String (List (Param × Option ParamState))
  | [] => .ok []
  | (p, st) :: rest =>
    match stepParam cfg sqrtq rnd p st with
    | .error e => .error e
    | .ok r =>
      match stepList cfg sqrtq rnd rest with
      | .error e => .error e
      | .ok rs => .ok (r :: rs)

/-- Overwrite each parameter's gradient with the given synced gradient
(the visible effect on this process of `sync_grads`, whose cross-rank mean
depends on the other ranks and is therefore passed in). -/
def applySync (syncedGrads : List (Option Tensor)) (ps : List (Param × Option ParamState)) :
    List (Param × Option ParamState) :=
  List.zipWith (fun sg x => ({ x.1 with grad := sg }, x.2)) syncedGrads ps

/-- Embedding of `Lamb.step` as seen by one process: when
`perform_allreduce` is set, `sync_grads` first replaces every gradient by
its cross-rank average (supplied as `syncedGrads`); then the per-parameter
loop runs. The optional closure only produces the returned loss and is
not modelled. -/
def Lamb.step (cfg : Lamb) (sqrtq rnd : ℚ → ℚ) (syncedGrads : List (Option Tensor))
    (ps : List (Param × Option ParamState)) :
    Except String (List (Param × Option ParamState)) :=
  stepList cfg sqrtq rnd (if cfg.perform_allreduce then applySync syncedGrads ps else ps)

/-! ## Concrete instances used by witnesses -/

/-- A configuration with a non-zero weight decay. -/
def cfgWD : Lamb :=
  { lr := 1/100, beta1 := 9/10, beta2 := 99/100, eps := 1/1000000,
    weight_decay := 1/100, adam := false, bias_correction := true,
    perform_allreduce := false, distributed := false }

/-- A configuration in plain-Adam comparison mode with a non-zero weight
decay. -/
def cfgAdam : Lamb :=
  { lr := 1/100, beta1 := 9/10, beta2 := 99/100, eps := 1/1000000,
    weight_decay := 1/100, adam := true, bias_correction := true,
    perform_allreduce := false, distributed := false }

/-- A configuration with zero weight decay and simple coefficients. -/
def cfgUnit : Lamb :=
  { lr := 1, beta1 := 0, beta2 := 0, eps := 0, weight_decay := 0,
    adam := false, bias_correction := false,
    perform_allreduce := false, distributed := false }

/-- A parameter whose gradient is absent this round. -/
def pNoGrad : Param :=
  { data := { vals := [1], dtype := .float32, sparse := false }, grad := none }

/-- A parameter holding a sparse gradient. -/
def pSparse : Param :=
  { data := { vals := [1], dtype := .float32, sparse := false },
    grad := some { vals := [2], dtype := .float32, sparse := true } }

/-- A parameter holding a dense gradient. -/
def pDense : Param :=
  { data := { vals := [1], dtype := .float32, sparse := false },
    grad := some { vals := [2], dtype := .float32, sparse := false } }

/-! ## Claims about construction, loss scaling and the collectives -/

/-- C6: `Lamb.__init__` succeeds exactly when the hyperparameters are in
range: `0 ≤ lr`, `0 ≤ eps`, `0 ≤ beta1 < 1` and `0 ≤ beta2 < 1`; any
out-of-range value raises the validation error. -/
theorem lamb_init_validation_iff (lr beta1 beta2 eps weight_decay : ℚ)
    (adam bias_correction perform_allreduce distributed : Bool) :
    isOkE (Lamb.init lr beta1 beta2 eps weight_decay
        adam bias_correction perform_allreduce distributed) = true ↔
      (0 ≤ lr ∧ 0 ≤ eps ∧ (0 ≤ beta1 ∧ beta1 < 1) ∧ (0 ≤ beta2 ∧ beta2 < 1)) := by
  unfold Lamb.init
  split_ifs with h1 h2 h3 h4 <;> simp_all [isOkE, not_lt]

/-- C9: in every branch of the accumulation state machine — the two
ResNet50 `train_step` accumulate branches, its sync branch, and the DeepCAM
micro-batch body — the loss handed to `backward` is the raw loss divided by
the accumulation frequency. -/
theorem loss_scaled_before_backward (f : ℕ) (ddp : Bool) (l : ℚ) (i n : ℕ) :
    (train_step f ddp l i).backward_loss = l / (f : ℚ) ∧
    (deepcam_micro_batch f l i n).backward_loss = l / (f : ℚ) := by
  constructor
  · unfold train_step
    split_ifs <;> rfl
  · rfl

/-- C2 (failing input): with accumulation frequency 2, at the last
micro-batch (`batch_idx = 2`) of a 3-micro-batch epoch the window is
partial (`(2+1) % 2 ≠ 0`); ResNet50's `train_step` does not invoke
`opt.step()` there, dropping the accumulated gradients, while the DeepCAM
loop body does force-flush in the same situation. -/
theorem resnet_final_partial_window_dropped :
    (train_step 2 false 1 2).stepped = false ∧
    (2 + 1) % 2 ≠ 0 ∧
    (deepcam_micro_batch 2 1 2 3).stepped = true := by
  refine ⟨rfl, by decide, rfl⟩

/-- C3 (failing input): in a distributed run with at least one parameter,
`sync_params` raises `AttributeError` (the `distance.broadcase` slip)
instead of broadcasting rank 0's values; the non-distributed no-op part
does hold. -/
theorem sync_params_raises_in_distributed_run :
    sync_params true [[1]] =
      .error "AttributeError: function object has no attribute broadcase" ∧
    sync_params false [[1]] = .ok [[1]] :=
  ⟨rfl, rfl⟩

/-- C4: in a distributed run `sync_grads` leaves every rank holding the
flat all-reduce (sum) of the input gradients divided by the world size —
the mean of all ranks' gradients — and when not distributed it leaves the
gradients unchanged. -/
theorem sync_grads_matches_flat_mean (n : ℕ) (g : ℕ → ℚ) :
    (∀ r, sync_grads true n g r = (∑ j ∈ Finset.range n, g j) / (n : ℚ)) ∧
    sync_grads false n g = g := by
  refine ⟨fun r => ?_, rfl⟩
  unfold sync_grads all_reduce_sum
  simp [Finset.sum_div]

/-! ## Claims about the trust ratio and the per-parameter loop -/

/-- C5: the trust ratio of `Lamb.step` is exactly 1 whenever the weight
decay is zero, whenever the weight decay is non-zero but one of the two
norms is exactly zero, and whenever plain-Adam comparison mode is on; and
the division `weight_norm / adam_norm` is only ever executed with a
non-zero divisor. -/
theorem lamb_trust_ratio_guard (cfg : Lamb) (wn an : ℚ) :
    (∀ d, lambTrustDivisor cfg wn an = some d → d ≠ 0) ∧
    (cfg.weight_decay = 0 → lambTrustRatio cfg wn an = 1) ∧
    (cfg.weight_decay ≠ 0 → (wn = 0 ∨ an = 0) → lambTrustRatio cfg wn an = 1) ∧
    (cfg.adam = true → lambTrustRatio cfg wn an = 1) := by
  unfold lambTrustDivisor lambTrustRatio trustFromNorms
  refine ⟨fun d hd => ?_, fun h0 => ?_, fun hne hz => ?_, fun ha => ?_⟩
  · split_ifs at hd <;> simp_all [not_or]
  · simp [h0]
  · simp only [if_pos hne, if_pos hz]
    split_ifs <;> rfl
  · simp only [ha]
    split_ifs <;> rfl

/-- Witness for C5 at concrete inputs: a zero weight norm with non-zero
weight decay, plain-Adam mode, and zero weight decay all give trust
ratio 1. -/
theorem lamb_trust_ratio_guard_witness :
    lambTrustRatio cfgWD 0 5 = 1 ∧
    lambTrustRatio cfgAdam 3 4 = 1 ∧
    lambTrustRatio cfgUnit 3 4 = 1 :=
  ⟨(lamb_trust_ratio_guard cfgWD 0 5).2.2.1 (by norm_num [cfgWD]) (Or.inl rfl),
   (lamb_trust_ratio_guard cfgAdam 3 4).2.2.2 rfl,
   (lamb_trust_ratio_guard cfgUnit 3 4).2.1 rfl⟩

/-- C7: the per-parameter loop of `Lamb.step` skips a parameter whose
gradient is absent, leaving the parameter and its state untouched, and
raises the sparse-gradient `RuntimeError` when the gradient is sparse
(before the state entry for that parameter is created or read). -/
theorem lamb_step_skip_and_sparse (cfg : Lamb) (sq rnd : ℚ → ℚ) (p : Param)
    (st : Option ParamState) :
    (p.grad = none → stepParam cfg sq rnd p st = .ok (p, st)) ∧
    (∀ g, p.grad = some g → g.sparse = true →
      stepParam cfg sq rnd p st =
        .error "Lamb does not support sparse gradients, consider SparseAdam instad.") := by
  constructor
  · intro h
    unfold stepParam
    rw [h]
  · intro g hg hs
    unfold stepParam
    rw [hg]
    simp [hs]

/-- Witness for C7: a gradient-free parameter is returned untouched and a
sparse gradient raises, at concrete inputs. -/
theorem lamb_step_skip_and_sparse_witness :
    stepParam cfgWD id id pNoGrad none = .ok (pNoGrad, none) ∧
    stepParam cfgWD id id pSparse none =
      .error "Lamb does not support sparse gradients, consider SparseAdam instad." :=
  ⟨(lamb_step_skip_and_sparse cfgWD id id pNoGrad none).1 rfl,
   (lamb_step_skip_and_sparse cfgWD id id pSparse none).2 _ rfl rfl⟩

/-! ## The dense step never writes the gradient buffer -/

/-- The dense per-parameter body returns the parameter with its gradient
field untouched: only `p.data` is rewritten. -/
theorem stepDense_grad (cfg : Lamb) (sq rnd : ℚ → ℚ) (p : Param) (g : Tensor)
    (s : ParamState) : (stepDense cfg sq rnd p g s).1.grad = p.grad := by
  simp only [stepDense]
  split_ifs <;> rfl

/-- One iteration of the per-parameter loop preserves the gradient of the
parameter it returns. -/
theorem stepParam_grad (cfg : Lamb) (sq rnd : ℚ → ℚ) (p : Param)
    (st : Option ParamState) (p' : Param) (st2 : Option ParamState)
    (h : stepParam cfg sq rnd p st = .ok (p', st2)) : p'.grad = p.grad := by
  unfold stepParam at h
  cases hpg : p.grad with
  | none =>
    rw [hpg] at h
    simp at h
    rw [← h.1]
    exact hpg
  | some g =>
    rw [hpg] at h
    by_cases hs : g.sparse = true
    · simp [hs] at h
    · simp [hs] at h
      rw [← h.1, stepDense_grad]
      exact hpg

/-- The whole per-parameter loop preserves every parameter's gradient. -/
theorem stepList_grads (cfg : Lamb) (sq rnd : ℚ → ℚ)
    (ps : List (Param × Option ParamState)) :
    ∀ ps', stepList cfg sq rnd ps = .ok ps' →
      ps'.map (fun x => x.1.grad) = ps.map (fun x => x.1.grad) := by
  induction ps with
  | nil =>
    intro ps' h
    simp [stepList] at h
    simp [← h]
  | cons hd tl ih =>
    intro ps' h
    obtain ⟨p, st⟩ := hd
    unfold stepList at h
    cases hsp : stepParam cfg sq rnd p st with
    | error e => rw [hsp] at h; simp at h
    | ok r =>
      rw [hsp] at h
      cases hsl : stepList cfg sq rnd tl with
      | error e => rw [hsl] at h; simp at h
      | ok rs =>
        rw [hsl] at h
        simp at h
        obtain ⟨pr, str⟩ := r
        rw [← h]
        simp only [List.map_cons]
        exact congrArg₂ _ (stepParam_grad cfg sq rnd p st pr str hsp) (ih rs hsl)

/-- C10: with `perform_allreduce` off, `Lamb.step` never mutates any
parameter's gradient buffer — after a successful step every parameter
holds exactly the gradient it held before; only parameter values and the
per-parameter optimizer state are rewritten. -/
theorem lamb_step_preserves_gradients (cfg : Lamb) (sq rnd : ℚ → ℚ)
    (sg : List (Option Tensor)) (ps ps' : List (Param × Option ParamState))
    (hfl : cfg.perform_allreduce = false)
    (hok : Lamb.step cfg sq rnd sg ps = .ok ps') :
    ps'.map (fun x => x.1.grad) = ps.map (fun x => x.1.grad) := by
  unfold Lamb.step at hok
  rw [hfl] at hok
  simp at hok
  exact stepList_grads cfg sq rnd ps ps' hok

/-- The two dtypes are distinct (used to reduce the bfloat16 branches at
concrete float32 inputs). -/
theorem f32_ne_bf16 : DType.float32 ≠ DType.bfloat16 := by decide

/-- The parameter produced by one `cfgUnit` step on `pDense`. -/
def pOut : Param :=
  { data := { vals := [1/2], dtype := .float32, sparse := false },
    grad := some { vals := [2], dtype := .float32, sparse := false } }

/-- The state produced by one `cfgUnit` step on `pDense`. -/
def stOut : ParamState :=
  { step := 1,
    exp_avg := { vals := [2], dtype := .float32, sparse := false },
    exp_avg_sq := { vals := [4], dtype := .float32, sparse := false },
    data_fp32 := none, weight_norm := none, adam_norm := none,
    trust_ratio := none }

/-- Witness for C10: a concrete one-parameter step with `perform_allreduce`
off returns the gradient unchanged. -/
theorem lamb_step_preserves_gradients_witness :
    List.map (fun x => x.1.grad) [(pOut, some stOut)] =
      List.map (fun x => x.1.grad) [(pDense, (none : Option ParamState))] :=
  lamb_step_preserves_gradients cfgUnit id id [] [(pDense, none)] [(pOut, some stOut)]
    rfl
    (by norm_num [Lamb.step, stepList, stepParam, stepDense, initState, zeros_like,
          tensorTo, lambTrustRatio, cfgUnit, pDense, pOut, stOut, f32_ne_bf16])

/-! ## The per-parameter state invariant -/

/-- Wellformedness of a state entry for its owning parameter: the moment
shapes equal the parameter's shape, and the fp32 master copy, when
present, also has the parameter's shape. -/
def StateWF (p : Param) (s : ParamState) : Prop :=
  s.exp_avg.vals.length = p.data.vals.length ∧
  s.exp_avg_sq.vals.length = p.data.vals.length ∧
  (∀ t, s.data_fp32 = some t → t.vals.length = p.data.vals.length)

/-- Wellformedness of an optional state entry (a missing entry is
trivially wellformed). -/
def OptStateWF (p : Param) (st : Option ParamState) : Prop :=
  match st with
  | none => True
  | some s => StateWF p s

/-- The step count recorded in an optional state entry (0 when absent,
as set by the lazy initialization). -/
def stepCount (st : Option ParamState) : ℕ :=
  match st with
  | none => 0
  | some s => s.step

/-- Lazy initialization produces a wellformed state entry. -/
theorem initState_WF (p : Param) : StateWF p (initState p) := by
  refine ⟨by simp [initState, zeros_like], by simp [initState, zeros_like], ?_⟩
  intro t ht
  unfold initState at ht
  dsimp at ht
  split_ifs at ht with hbf
  obtain rfl : ({ p.data with dtype := DType.float32 } : Tensor) = t := by
    simpa using ht
  rfl

/-- The dense per-parameter body increments the step count by exactly one
and keeps the parameter shape and both moment shapes equal to it. -/
theorem stepDense_invariant (cfg : Lamb) (sq rnd : ℚ → ℚ) (p : Param) (g : Tensor)
    (s : ParamState) (hg : g.vals.length = p.data.vals.length) (hwf : StateWF p s) :
    (stepDense cfg sq rnd p g s).2.step = s.step + 1 ∧
    (stepDense cfg sq rnd p g s).1.data.vals.length = p.data.vals.length ∧
    (stepDense cfg sq rnd p g s).2.exp_avg.vals.length = p.data.vals.length ∧
    (stepDense cfg sq rnd p g s).2.exp_avg_sq.vals.length = p.data.vals.length := by
  obtain ⟨h1, h2, h3⟩ := hwf
  have hdata : (s.data_fp32.getD p.data).vals.length = p.data.vals.length := by
    cases hfp : s.data_fp32 with
    | none => rfl
    | some t => simpa using h3 t hfp
  simp only [stepDense]
  split_ifs <;>
    simp_all [List.length_zipWith, List.length_map, tensorTo, zeros_like]

/-- C8: the per-parameter state is lazily initialized on first encounter
with `step = 0`, zero-filled float32 moments of the parameter's shape
(whatever the parameter's storage precision), and an fp32 master copy
present iff the parameter is bfloat16; and a step that processes a
parameter increments its step count by exactly 1 while keeping the moment
shapes equal to the parameter's shape. -/
theorem lamb_state_invariant (cfg : Lamb) (sq rnd : ℚ → ℚ) (p : Param) :
    ((initState p).step = 0
      ∧ (initState p).exp_avg.vals = List.replicate p.data.vals.length 0
      ∧ (initState p).exp_avg.dtype = DType.float32
      ∧ (initState p).exp_avg_sq.vals = List.replicate p.data.vals.length 0
      ∧ (initState p).exp_avg_sq.dtype = DType.float32
      ∧ ((initState p).data_fp32.isSome = true ↔ p.data.dtype = DType.bfloat16))
    ∧ (∀ g st0, p.grad = some g → g.sparse = false →
        g.vals.length = p.data.vals.length → OptStateWF p st0 →
        ∃ p' st', stepParam cfg sq rnd p st0 = .ok (p', some st')
          ∧ st'.step = stepCount st0 + 1
          ∧ p'.data.vals.length = p.data.vals.length
          ∧ st'.exp_avg.vals.length = p'.data.vals.length
          ∧ st'.exp_avg_sq.vals.length = p'.data.vals.length) := by
  constructor
  · refine ⟨rfl, rfl, rfl, rfl, rfl, ?_⟩
    unfold initState
    dsimp
    split_ifs with h <;> simp_all
  · intro g st0 hg hs hlen hwf
    have hwf' : StateWF p (st0.getD (initState p)) := by
      cases st0 with
      | none => exact initState_WF p
      | some s => exact hwf
    have hst : (st0.getD (initState p)).step = stepCount st0 := by
      cases st0 <;> rfl
    obtain ⟨hstep, hplen, havg, hsq⟩ :=
      stepDense_invariant cfg sq rnd p g (st0.getD (initState p)) hlen hwf'
    refine ⟨(stepDense cfg sq rnd p g (st0.getD (initState p))).1,
            (stepDense cfg sq rnd p g (st0.getD (initState p))).2, ?_, ?_, ?_, ?_, ?_⟩
    · unfold stepParam
      rw [hg]
      simp [hs]
    · rw [hstep, hst]
    · exact hplen
    · exact havg.trans hplen.symm
    · exact hsq.trans hplen.symm

/-- Witness for C8: the first step on a concrete dense parameter succeeds,
sets the step count to 1, and keeps all shapes equal. -/
theorem lamb_state_invariant_witness :
    ∃ p' st', stepParam cfgUnit id id pDense none = .ok (p', some st')
      ∧ st'.step = stepCount none + 1
      ∧ p'.data.vals.length = pDense.data.vals.length
      ∧ st'.exp_avg.vals.length = p'.data.vals.length
      ∧ st'.exp_avg_sq.vals.length = p'.data.vals.length :=
  (lamb_state_invariant cfgUnit id id pDense).2
    { vals := [2], dtype := .float32, sparse := false } none rfl rfl rfl
    (by simp [OptStateWF])


/-! ## The hierarchical reduce hook (`custom_reduce_hook` in ResNet50)

Topology from `main`: `n = world_size`, `k = taskspernode`; rank `r` lives
on node `r / k`, `local_ranks = [node*k + i for i in range(k)]` and
`zeros_ranks = [i for i in range(n) if i % k == 0]`. A bucket is a flat
list of rationals and `input r` is rank `r`'s bucket buffer.

The embedding follows the hook per rank and keeps its faults:
* `dist.reduce(tensor, 0, group=local_ranks)` and
  `dist.broadcast(tensor, 0, group=local_ranks)` name dst/src by GLOBAL
  rank `0`, which torch rejects (`get_group_rank` raises) for every local
  group that does not contain global rank 0, i.e. every node but the first;
* a torch work future's `value()` is the singleton LIST of tensors, but a
  `then`-future's `value()` is whatever the callback returned — a bare
  tensor — so the `[0]` in `_dev`, and the trailing `.value()[0]` of
  `_all_reduce_zeros`, index INTO the tensor (first element, a 0-dim
  tensor; indexing a 0-dim tensor raises IndexError).
Where the source is merely dubious rather than wrong the model is
charitable (strictly easier than the real hook): the positional `0` passed
as the all-reduce op is read as `ReduceOp.SUM` (whose enum value is 0),
the premature `.value()` on the just-chained future in `_all_reduce_zeros`
is read as the completed value, and every collective that is locally valid
completes with its intended value (peers assumed alive). Even so the hook
diverges from the flat all-reduce average. -/

/-- A torch tensor value flowing through the hook: a 1-D bucket tensor or
the 0-dim tensor produced by indexing one. -/
inductive TVal where
  | tensor (vals : List ℚ)
  | scalar (x : ℚ)
deriving DecidableEq, Repr

/-- A future's resolved value: a c10d work future holds the list of
tensors, while a `then`-future holds the callback's bare return value. -/
inductive FutVal where
  | tensors (ts : List TVal)
  | single (t : TVal)
deriving DecidableEq, Repr

/-- Python `fut.value()[0]`: first element of a tensor list; first element
(a 0-dim tensor) of a 1-D tensor; an IndexError on a 0-dim tensor. -/
def pyIndex0 : FutVal → Except String TVal
  | .tensors [] => .error "IndexError: list index out of range"
  | .tensors (t :: _) => .ok t
  | .single (.tensor []) => .error "IndexError: index 0 is out of bounds"
  | .single (.tensor (v :: _)) => .ok (.scalar v)
  | .single (.scalar _) => .error "IndexError: invalid index of a 0-dim tensor"

/-- Elementwise tensor division by the world size (`/ gc.world_size`). -/
def tvalDiv (t : TVal) (n : ℕ) : TVal :=
  match t with
  | .tensor vs => .tensor (vs.map (fun x => x / (n : ℚ)))
  | .scalar x => .scalar (x / (n : ℚ))

/-- Elementwise sum of two buffers. -/
def vecAdd (a b : List ℚ) : List ℚ := List.zipWith (fun x y => x + y) a b

/-- Elementwise sum of the buffers held by the ranks of a group. -/
def groupSum (g : List ℕ) (bufs : ℕ → List ℚ) : List ℚ :=
  match g with
  | [] => []
  | r0 :: rest => rest.foldl (fun acc j => vecAdd acc (bufs j)) (bufs r0)

/-- The local group of a node, `[node*k + i for i in range(k)]` in `main`. -/
def local_ranks (k node : ℕ) : List ℕ := (List.range k).map (fun i => node * k + i)

/-- The leader ranks, `[i for i in range(world_size) if i % taskspernode == 0]`
in `main`. -/
def zeros_ranks (n k : ℕ) : List ℕ := (List.range n).filter (fun i => i % k == 0)

/-- Embedding of `dist.reduce(tensor, dst, group=g, async_op=True)` with
the sum op, as seen by rank `r`: torch resolves `dst` as a GLOBAL rank and
raises when it is not part of `g`; otherwise the dst rank ends holding the
elementwise sum of the group's buffers and the other ranks keep theirs. -/
def dist_reduce (dst : ℕ) (g : List ℕ) (bufs : ℕ → List ℚ) (r : ℕ) :
    Except String (List ℚ) :=
  if dst ∈ g then
    .ok (if r = dst then groupSum g bufs else bufs r)
  else
    .error "ValueError: global rank 0 is not part of the group"

/-- Embedding of `dist.broadcast(tensor, src, group=g)` at a receiving
rank: raises when the GLOBAL rank `src` is not part of `g`; otherwise the
rank ends holding the src rank's buffer `srcVal`. -/
def dist_broadcast (src : ℕ) (g : List ℕ) (srcVal : List ℚ) :
    Except String (List ℚ) :=
  if src ∈ g then .ok srcVal else .error "ValueError: global rank 0 is not part of the group"

/-- Embedding of `dist.all_reduce(..., 0, group=g)`: the positional `0` is
charitably read as `ReduceOp.SUM`; every rank of `g` ends with the
elementwise sum of the group's buffers. -/
def dist_all_reduce_sum (g : List ℕ) (bufs : ℕ → List ℚ) : List ℚ := groupSum g bufs

/-- The buffer a node leader holds after its stage-1 local reduce,
charitably assuming that reduce completed with its intended value. -/
def leader_stage1 (k : ℕ) (input : ℕ → List ℚ) (l : ℕ) : List ℚ :=
  groupSum (local_ranks k (l / k)) input

/-- Embedding of `ML/ResNet50/Torch/train.py:custom_reduce_hook` as
resolved at rank `r`: `_reduce` (a `dist.reduce` to global rank 0 over the
local group), then for a leader `_all_reduce_zeros` (all-reduce among
`zeros_ranks`, then `_local_broadcast`, then the stray `.value()[0]`), for
a non-leader `_local_broadcast` (a `dist.broadcast` from global rank 0
over the local group), and finally `_dev` (`fut.value()[0] / world_size`).
Each `.value()[0]` of the source is modelled by `pyIndex0` on the exact
kind of future it is called on. -/
def custom_reduce_hook (n k : ℕ) (input : ℕ → List ℚ) (r : ℕ) :
    Except String TVal :=
  let locg := local_ranks k (r / k)
  let zerog := zeros_ranks n k
  match dist_reduce 0 locg input r with
  | .error e => .error e
  | .ok t1 =>
    let fut1 : FutVal := .tensors [.tensor t1]
    if r % k == 0 then
      match pyIndex0 fut1 with
      | .error e => .error e
      | .ok _ =>
        let t2 := dist_all_reduce_sum zerog (leader_stage1 k input)
        match pyIndex0 (.tensors [.tensor t2]) with
        | .error e => .error e
        | .ok _ =>
          match dist_broadcast 0 locg t2 with
          | .error e => .error e
          | .ok t3 =>
            match pyIndex0 (.single (.tensor t3)) with
            | .error e => .error e
            | .ok s =>
              match pyIndex0 (.single s) with
              | .error e => .error e
              | .ok s2 => .ok (tvalDiv s2 n)
    else
      match pyIndex0 fut1 with
      | .error e => .error e
      | .ok _ =>
        match dist_broadcast 0 locg
            (dist_all_reduce_sum zerog (leader_stage1 k input)) with
        | .error e => .error e
        | .ok t3 =>
          match pyIndex0 (.single (.tensor t3)) with
          | .error e => .error e
          | .ok s => .ok (tvalDiv s n)

/-- The flat baseline of the claim: an all-reduce (sum) of the bucket over
all ranks followed by elementwise division by the world size. -/
def flat_bucket_avg (n : ℕ) (input : ℕ → List ℚ) : List ℚ :=
  (groupSum (List.range n) input).map (fun x => x / (n : ℚ))

/-- Concrete per-rank buckets for the failing topology: rank `r` holds
`[r + 1, 2]`. -/
def hookBuckets : ℕ → List ℚ := fun r => [(r : ℚ) + 1, 2]

/-- C1 (failing input): with `world_size = 4`, `taskspernode = 2` and
bucket `[r+1, 2]` at rank `r`, the hook raises `ValueError` on every rank
of the second node (global rank 0 is not in their local group), raises
`IndexError` on the node-0 leader (`_dev` indexes the 0-dim tensor that
`_all_reduce_zeros` returned), and resolves rank 1 to the single scalar
`first element / world_size` — never to the flat all-reduce average
`[5/2, 2]` of the whole bucket that the claim requires at every rank. -/
theorem custom_reduce_hook_diverges_from_flat :
    custom_reduce_hook 4 2 hookBuckets 2 =
      .error "ValueError: global rank 0 is not part of the group" ∧
    custom_reduce_hook 4 2 hookBuckets 3 =
      .error "ValueError: global rank 0 is not part of the group" ∧
    custom_reduce_hook 4 2 hookBuckets 0 =
      .error "IndexError: invalid index of a 0-dim tensor" ∧
    custom_reduce_hook 4 2 hookBuckets 1 = .ok (TVal.scalar (5/2)) ∧
    flat_bucket_avg 4 hookBuckets = [5/2, 2] ∧
    custom_reduce_hook 4 2 hookBuckets 1 ≠
      .ok (TVal.tensor (flat_bucket_avg 4 hookBuckets)) := by
  have h1 : custom_reduce_hook 4 2 hookBuckets 1 = .ok (TVal.scalar (5/2)) := by
    norm_num [custom_reduce_hook, dist_reduce, dist_broadcast, dist_all_reduce_sum,
      leader_stage1, local_ranks, zeros_ranks, groupSum, vecAdd, pyIndex0, tvalDiv,
      hookBuckets, List.range_succ]
  have h2 : flat_bucket_avg 4 hookBuckets = [5/2, 2] := by
    norm_num [flat_bucket_avg, groupSum, vecAdd, hookBuckets, List.range_succ]
  refine ⟨rfl, rfl, rfl, h1, h2, ?_⟩
  rw [h1, h2]
  simp
